import Mathlib

/-!
Verification development for the `apache_metrics` source of the repository:
a shallow embedding of `src/sources/apache_metrics/parser.rs` (the report /
line parser) and of the response-handling step of
`src/sources/apache_metrics/mod.rs`, together with theorems about them.

Modelling conventions:
* Rust `&str` text that is processed character by character (bodies, lines,
  values) is `List Char`; keys, metric names and tags are Lean `String`s.
* `f64` values are modelled exactly: the decimal grammar of Rust's
  `f64::from_str` is implemented and a successful finite parse carries the
  exact rational value of the literal (rounding to the nearest double is
  elided; every value appearing in the theorems below is exactly
  representable).  `inf`/`infinity`/`nan` forms are kept as dedicated
  constructors.
* `u32` arithmetic wraps modulo `2 ^ 32` (`v * 1024` in the `Total kBytes`
  branch, and the per-character occurrence counters of the `Scoreboard`
  branch).
* `DateTime<Utc>` is an opaque instant, modelled as `Nat`.
* `BTreeMap<String, String>` is a key-sorted association list with a
  replacing ordered insert (`insertTag`).
* The `Scoreboard` branch of `line_to_metrics` iterates a `HashMap` whose
  iteration order is unspecified; the embedding makes that order an explicit
  parameter `ord`, constrained in theorems to be a permutation of the
  association list `scoreboardStates` the map is built from.
-/

namespace ApacheMetrics

/-- Characters with the Unicode `White_Space` property, as matched by
Rust's `char::is_whitespace` (used by `str::trim` on the value part). -/
def isRustWhitespace (c : Char) : Bool :=
  [0x09, 0x0A, 0x0B, 0x0C, 0x0D, 0x20, 0x85, 0xA0, 0x1680,
   0x2028, 0x2029, 0x202F, 0x205F, 0x3000].contains c.toNat ||
  (decide (0x2000 ≤ c.toNat) && decide (c.toNat ≤ 0x200A))

/-- Rust `str::trim`: remove whitespace from both ends. -/
def rustTrim (l : List Char) : List Char :=
  ((l.dropWhile isRustWhitespace).reverse.dropWhile isRustWhitespace).reverse

/-- Split a character list into chunks, each keeping its terminating `'\n'`
(Rust's `split_inclusive('\n')`, the first half of `str::lines`). -/
def splitInclusiveNL : List Char → List Char → List (List Char)
  | acc, [] => if acc.isEmpty then [] else [acc.reverse]
  | acc, c :: rest =>
    if c = '\n' then (acc.reverse ++ ['\n']) :: splitInclusiveNL [] rest
    else splitInclusiveNL (c :: acc) rest

/-- Strip a trailing `'\n'`, and a `'\r'` directly before it, from a line
(the mapping half of Rust's `str::lines`). -/
def stripLineEnding (l : List Char) : List Char :=
  match l.getLast? with
  | some '\n' =>
    let l' := l.dropLast
    match l'.getLast? with
    | some '\r' => l'.dropLast
    | _ => l'
  | _ => l

/-- Rust `str::lines`. -/
def linesOf (s : List Char) : List (List Char) :=
  (splitInclusiveNL [] s).map stripLineEnding

/-- Numeric value of a digit string, most significant first. -/
def digitsVal (l : List Char) : Nat :=
  l.foldl (fun a c => a * 10 + (c.toNat - 48)) 0

/-- Exponent suffix of Rust's float grammar: either nothing, or
`('e'|'E') sign? digit+` consuming the whole rest. -/
def parseExpPart : List Char → Option Int
  | [] => some 0
  | c :: r =>
    if c = 'e' ∨ c = 'E' then
      let p : Int × List Char :=
        match r with
        | '+' :: t => (1, t)
        | '-' :: t => (-1, t)
        | t => (1, t)
      if p.2 ≠ [] ∧ p.2.all Char.isDigit then
        some (p.1 * (digitsVal p.2 : Int))
      else none
    else none

/-- Ten to an integer power, `(10 : ℚ) ^ e`. -/
def tenPow (e : Int) : ℚ := (10 : ℚ) ^ e

/-- The unsigned decimal part of Rust's float grammar:
`digit+ | digit+ '.' digit* | digit* '.' digit+`, then an optional
exponent; the exact rational value of the literal. -/
def parseDecimal (l : List Char) : Option ℚ :=
  let ip := l.takeWhile Char.isDigit
  match l.dropWhile Char.isDigit with
  | '.' :: r =>
    let fp := r.takeWhile Char.isDigit
    let rest := r.dropWhile Char.isDigit
    if ip = [] ∧ fp = [] then none
    else (parseExpPart rest).map fun e =>
      ((digitsVal ip : ℚ) + (digitsVal fp : ℚ) / (10 : ℚ) ^ fp.length) * tenPow e
  | rest =>
    if ip = [] then none
    else (parseExpPart rest).map fun e => (digitsVal ip : ℚ) * tenPow e

/-- A parsed `f64`: a finite (exact) rational, or one of the special
values Rust's `f64::from_str` also accepts. -/
inductive FloatVal where
  | finite (q : ℚ)
  | inf
  | neginf
  | nan
deriving DecidableEq

/-- Rust `str::parse::<f64>()`:
`sign? ('inf' | 'infinity' | 'nan' | number)`, case-insensitive special
forms. -/
def parseF64 (l : List Char) : Option FloatVal :=
  let p : Bool × List Char :=
    match l with
    | '+' :: t => (false, t)
    | '-' :: t => (true, t)
    | t => (false, t)
  let low := p.2.map Char.toLower
  if low = "inf".toList ∨ low = "infinity".toList then
    some (if p.1 then FloatVal.neginf else FloatVal.inf)
  else if low = "nan".toList then some FloatVal.nan
  else (parseDecimal p.2).map fun q => FloatVal.finite (if p.1 then -q else q)

/-- Rust `str::parse::<u32>()`: optional `'+'`, one or more digits, value
within `u32` range. -/
def parseU32 (l : List Char) : Option Nat :=
  let digs : List Char := match l with | '+' :: t => t | t => t
  if digs ≠ [] ∧ digs.all Char.isDigit then
    let v := digitsVal digs
    if v ≤ 4294967295 then some v else none
  else none

/-- The source's `event::metric::MetricKind`. -/
inductive MetricKind where
  | absolute
  | incremental
deriving DecidableEq

/-- The source's `event::metric::MetricValue`, restricted to the two variants this
source produces. -/
inductive MetricValue where
  | counter (value : FloatVal)
  | gauge (value : FloatVal)
deriving DecidableEq

/-- A `BTreeMap<String, String>` as a key-sorted association list. -/
abbrev TagMap := List (String × String)

/-- The map's `BTreeMap::insert`: ordered insert, replacing an existing binding. -/
def insertTag : TagMap → String → String → TagMap
  | [], k, v => [(k, v)]
  | (k', v') :: rest, k, v =>
    if k < k' then (k, v) :: (k', v') :: rest
    else if k = k' then (k, v) :: rest
    else (k', v') :: insertTag rest k v

/-- The source's `event::metric::Metric`, the fields this source populates. -/
structure Metric where
  name : String
  timestamp : Option Nat
  tags : Option TagMap
  kind : MetricKind
  value : MetricValue
deriving DecidableEq

/-- The `ParseError` of `parser.rs`; the boxed underlying cause (a numeric
parse-error value used only for display) is elided, the `key` field is
kept. -/
structure ParseError where
  key : String
deriving DecidableEq

/-- The `LineResult` of `parser.rs`. -/
inductive LineResult where
  | metrics (ms : List Metric)
  | err (e : ParseError)
  | none
deriving DecidableEq

/-- The `encode_namespace` of `parser.rs`. -/
def encode_namespace (ns name : String) : String :=
  if ns ≠ "" then ns ++ "_" ++ name else name

/-- The association list the Scoreboard branch collects into its
`scoreboard: HashMap<char, &str>`. -/
def scoreboardStates : List (Char × String) :=
  [('_', "waiting"), ('S', "starting"), ('R', "reading"), ('W', "sending"),
   ('K', "keepalive"), ('D', "dnslookup"), ('C', "closing"), ('L', "logging"),
   ('G', "finishing"), ('I', "idle_cleanup"), ('.', "open")]

/-- The `to_metric` closure of the Scoreboard branch: one gauge per state,
with an extra `state` tag. -/
def to_metric (ns : String) (now : Nat) (tags : TagMap) (state : String)
    (count : Nat) : Metric :=
  { name := encode_namespace ns "scoreboard", timestamp := some now,
    tags := some (insertTag tags "state" state), kind := .absolute,
    value := .gauge (.finite (count : ℚ)) }

/-- The `line_to_metrics` of `parser.rs`.  `ord` is the iteration order of the
Scoreboard branch's `HashMap` (unspecified in Rust); its contents are the
pairs of `scoreboardStates`.  The `scores` occurrence map built by the fold
over the value's characters stores `u32` counters, each increment wrapping
modulo `2 ^ 32`, and is looked up only pointwise, so
`scores.get(c).unwrap_or(&0)` is `value.count c % 4294967296`. -/
def line_to_metrics (key : String) (value : List Char) (ns : String)
    (now : Nat) (tags : TagMap) (ord : List (Char × String)) : LineResult :=
  if key = "Uptime" then
    match parseF64 value with
    | some v => .metrics
        [{ name := encode_namespace ns "uptime_seconds_total",
           timestamp := some now, tags := some tags, kind := .absolute,
           value := .counter v },
         { name := encode_namespace ns "up", timestamp := some now,
           tags := some tags, kind := .absolute,
           value := .counter (.finite 1) }]
    | none => .err { key := key }
  else if key = "Total Accesses" then
    match parseF64 value with
    | some v => .metrics
        [{ name := encode_namespace ns "access_total", timestamp := some now,
           tags := some tags, kind := .absolute, value := .counter v }]
    | none => .err { key := key }
  else if key = "Total kBytes" then
    match parseU32 value with
    | some v => .metrics
        [{ name := encode_namespace ns "sent_bytes_total",
           timestamp := some now, tags := some tags, kind := .absolute,
           value := .counter (.finite ((v * 1024 % 4294967296 : Nat) : ℚ)) }]
    | none => .err { key := key }
  else if key = "Total Duration" then
    match parseF64 value with
    | some v => .metrics
        [{ name := encode_namespace ns "duration_seconds_total",
           timestamp := some now, tags := some tags, kind := .absolute,
           value := .counter v }]
    | none => .err { key := key }
  else if key = "CPUUser" then
    match parseF64 value with
    | some v => .metrics
        [{ name := encode_namespace ns "cpu_seconds_total",
           timestamp := some now, tags := some (insertTag tags "type" "user"),
           kind := .absolute, value := .gauge v }]
    | none => .err { key := key }
  else if key = "CPUSystem" then
    match parseF64 value with
    | some v => .metrics
        [{ name := encode_namespace ns "cpu_seconds_total",
           timestamp := some now,
           tags := some (insertTag tags "type" "system"),
           kind := .absolute, value := .gauge v }]
    | none => .err { key := key }
  else if key = "CPUChildrenUser" then
    match parseF64 value with
    | some v => .metrics
        [{ name := encode_namespace ns "cpu_seconds_total",
           timestamp := some now,
           tags := some (insertTag tags "type" "children_user"),
           kind := .absolute, value := .gauge v }]
    | none => .err { key := key }
  else if key = "CPUChildrenSystem" then
    match parseF64 value with
    | some v => .metrics
        [{ name := encode_namespace ns "cpu_seconds_total",
           timestamp := some now,
           tags := some (insertTag tags "type" "children_system"),
           kind := .absolute, value := .gauge v }]
    | none => .err { key := key }
  else if key = "CPULoad" then
    match parseF64 value with
    | some v => .metrics
        [{ name := encode_namespace ns "cpu_load", timestamp := some now,
           tags := some tags, kind := .absolute, value := .gauge v }]
    | none => .err { key := key }
  else if key = "IdleWorkers" then
    match parseF64 value with
    | some v => .metrics
        [{ name := encode_namespace ns "workers", timestamp := some now,
           tags := some (insertTag tags "state" "idle"),
           kind := .absolute, value := .gauge v }]
    | none => .err { key := key }
  else if key = "BusyWorkers" then
    match parseF64 value with
    | some v => .metrics
        [{ name := encode_namespace ns "workers", timestamp := some now,
           tags := some (insertTag tags "state" "busy"),
           kind := .absolute, value := .gauge v }]
    | none => .err { key := key }
  else if key = "ConnsTotal" then
    match parseF64 value with
    | some v => .metrics
        [{ name := encode_namespace ns "connections", timestamp := some now,
           tags := some (insertTag tags "state" "total"),
           kind := .absolute, value := .gauge v }]
    | none => .err { key := key }
  else if key = "ConnsAsyncWriting" then
    match parseF64 value with
    | some v => .metrics
        [{ name := encode_namespace ns "connections", timestamp := some now,
           tags := some (insertTag tags "state" "writing"),
           kind := .absolute, value := .gauge v }]
    | none => .err { key := key }
  else if key = "ConnsAsyncClosing" then
    match parseF64 value with
    | some v => .metrics
        [{ name := encode_namespace ns "connections", timestamp := some now,
           tags := some (insertTag tags "state" "closing"),
           kind := .absolute, value := .gauge v }]
    | none => .err { key := key }
  else if key = "ConnsAsyncKeepAlive" then
    match parseF64 value with
    | some v => .metrics
        [{ name := encode_namespace ns "connections", timestamp := some now,
           tags := some (insertTag tags "state" "keepalive"),
           kind := .absolute, value := .gauge v }]
    | none => .err { key := key }
  else if key = "Scoreboard" then
    .metrics (ord.map fun p =>
      to_metric ns now tags p.2 (value.count p.1 % 4294967296))
  else .none

/-- The line splitting step of `parser.rs`'s `parse`: split at the first
colon; the key is everything before it (untrimmed), the value everything
after it, trimmed; a line without a colon is dropped. -/
def keyValue (l : List Char) : Option (String × List Char) :=
  let k := l.takeWhile (fun c => c ≠ ':')
  match l.dropWhile (fun c => c ≠ ':') with
  | ':' :: v => some (String.mk k, rustTrim v)
  | _ => none

/-- The accumulator step of the fold in `parser.rs`'s `parse`. -/
def foldStep (acc : List Metric × List ParseError) (cur : LineResult) :
    List Metric × List ParseError :=
  match cur with
  | .metrics m => (acc.1 ++ m, acc.2)
  | .err e => (acc.1, acc.2 ++ [e])
  | .none => acc

/-- The `parse` of `parser.rs`: lines, first-colon split, per-line parse, fold
into a metric list and an error list. -/
def parse (packet : List Char) (ns : String) (now : Nat) (tags : TagMap)
    (ord : List (Char × String)) : List Metric × List ParseError :=
  ((((linesOf packet).filterMap keyValue).map fun kv =>
      line_to_metrics kv.1 kv.2 ns now tags ord).foldl foldStep ([], []))

namespace Mod

/-- The `ParseError` of `mod.rs` (an empty placeholder type in the source). -/
structure ParseError where
deriving DecidableEq

/-- The `parse` of `mod.rs` (lines 174-181): a stub that ignores its arguments
and returns an empty metric list. -/
def parse (ns : String) (packet : List Char) (tags : List (String × String)) :
    Except (List ParseError) (List Metric) :=
  .ok []

end Mod

/-- The observability events `mod.rs` emits while handling one response
(timestamps and URLs elided; they are opaque to the claims). -/
inductive ScrapeEvent where
  | requestCompleted
  | eventReceived (count : Nat)
  | parseErrorEvent
  | errorResponse (code : Nat)
  | httpError
deriving DecidableEq

/-- The outcome of one HTTP request of the fetcher: a response with a
status code and a (lossily decoded) body, or a transport error. -/
inductive FetchOutcome where
  | response (status : Nat) (body : List Char)
  | transportError
deriving DecidableEq

/-- The response-classification step of `apache_metrics` in `mod.rs`
(lines 107-150): the events emitted and the metrics forwarded to the
output sink for one fetch outcome.  The guard in the source is
`header.status == hyper::StatusCode::OK`, i.e. exactly 200.  On 200 the
body is handed to `Mod.parse`; on `Ok` metrics they are forwarded, on
`Err` only the first error (if any) is emitted as a parse-error event.  -/
def handleResponse (o : FetchOutcome) : List ScrapeEvent × List Metric :=
  match o with
  | .response status body =>
    if status = 200 then
      match Mod.parse "TODO" body [] with
      | .ok metrics => ([.requestCompleted, .eventReceived metrics.length], metrics)
      | .error errs =>
        ([.requestCompleted] ++ (if errs.isEmpty then [] else [.parseErrorEvent]), [])
    else ([.errorResponse status], [])
  | .transportError => ([.httpError], [])

/-- The keys with a numeric value among the match arms of
`line_to_metrics` (every recognized key except `Scoreboard`). -/
def numericKeys : List String :=
  ["Uptime", "Total Accesses", "Total kBytes", "Total Duration",
   "CPUUser", "CPUSystem", "CPUChildrenUser", "CPUChildrenSystem",
   "CPULoad", "IdleWorkers", "BusyWorkers", "ConnsTotal",
   "ConnsAsyncWriting", "ConnsAsyncClosing", "ConnsAsyncKeepAlive"]

/-- All keys recognized by a match arm of `line_to_metrics`. -/
def recognizedKeys : List String := numericKeys ++ ["Scoreboard"]

/-- The 11 known scoreboard state characters. -/
def knownStateChars : List Char := scoreboardStates.map Prod.fst

/-- The metric name suffixes `line_to_metrics` can emit. -/
def metricSuffixes : List String :=
  ["uptime_seconds_total", "up", "access_total", "sent_bytes_total",
   "duration_seconds_total", "cpu_seconds_total", "cpu_load", "workers",
   "connections", "scoreboard"]

/-- The fixed extra tag pairs `line_to_metrics` can add to the base tags. -/
def fixedTagPairs : List (String × String) :=
  [("type", "user"), ("type", "system"), ("type", "children_user"),
   ("type", "children_system"), ("state", "idle"), ("state", "busy"),
   ("state", "total"), ("state", "writing"), ("state", "closing"),
   ("state", "keepalive")] ++ scoreboardStates.map (fun p => ("state", p.2))

/-- The six-line sample status body of the specification. -/
def sampleBody : List Char :=
  ("Uptime: 123\nTotal Accesses: 50\nTotal kBytes: 10\nBusyWorkers: 2\n" ++
   "IdleWorkers: 8\nScoreboard: ___WWKK..").toList

/-- The scoreboard state counts expected for the sample body's
`___WWKK..` value, in the order of `scoreboardStates`. -/
def sampleScoreboardCounts : List (String × Nat) :=
  [("waiting", 3), ("starting", 0), ("reading", 0), ("sending", 2),
   ("keepalive", 2), ("dnslookup", 0), ("closing", 0), ("logging", 0),
   ("finishing", 0), ("idle_cleanup", 0), ("open", 2)]

/-- The metrics the specification expects for the sample body with
namespace `"apache"` (scoreboard gauges in the order of
`scoreboardStates`). -/
def sampleExpected (now : Nat) (tags : TagMap) : List Metric :=
  [{ name := "apache_uptime_seconds_total", timestamp := some now,
     tags := some tags, kind := .absolute,
     value := .counter (.finite ((123 : Nat) : ℚ)) },
   { name := "apache_up", timestamp := some now, tags := some tags,
     kind := .absolute, value := .counter (.finite 1) },
   { name := "apache_access_total", timestamp := some now, tags := some tags,
     kind := .absolute, value := .counter (.finite ((50 : Nat) : ℚ)) },
   { name := "apache_sent_bytes_total", timestamp := some now,
     tags := some tags, kind := .absolute,
     value := .counter (.finite ((10240 : Nat) : ℚ)) },
   { name := "apache_workers", timestamp := some now,
     tags := some (insertTag tags "state" "busy"), kind := .absolute,
     value := .gauge (.finite ((2 : Nat) : ℚ)) },
   { name := "apache_workers", timestamp := some now,
     tags := some (insertTag tags "state" "idle"), kind := .absolute,
     value := .gauge (.finite ((8 : Nat) : ℚ)) }] ++
  sampleScoreboardCounts.map fun p =>
    { name := "apache_scoreboard", timestamp := some now,
      tags := some (insertTag tags "state" p.1), kind := .absolute,
      value := .gauge (.finite (p.2 : ℚ)) }

/-- The metric list of a line result (`Metrics` payload, else empty). -/
def lineMetrics : LineResult → List Metric
  | .metrics m => m
  | _ => []

/-- The error of a line result (`Error` payload, else nothing). -/
def lineError : LineResult → Option ParseError
  | .err e => some e
  | _ => Option.none

/-- The sum of the values of the emitted gauges (finite gauges contribute
their value, anything else zero). -/
def gaugeSum (ms : List Metric) : ℚ :=
  (ms.map fun m =>
    match m.value with
    | .gauge (.finite q) => q
    | _ => 0).sum

/-! ## Helper lemmas -/

theorem foldl_foldStep_eq (rs : List LineResult)
    (acc : List Metric × List ParseError) :
    rs.foldl foldStep acc =
      (acc.1 ++ (rs.map lineMetrics).flatten, acc.2 ++ rs.filterMap lineError) := by
  induction rs generalizing acc with
  | nil => simp
  | cons r rs ih =>
    cases r <;> simp [foldStep, lineMetrics, lineError, ih]

theorem parse_eq (packet : List Char) (ns : String) (now : Nat) (tags : TagMap)
    (ord : List (Char × String)) :
    parse packet ns now tags ord =
      (((((linesOf packet).filterMap keyValue).map fun kv =>
          line_to_metrics kv.1 kv.2 ns now tags ord).map lineMetrics).flatten,
       (((linesOf packet).filterMap keyValue).map fun kv =>
          line_to_metrics kv.1 kv.2 ns now tags ord).filterMap lineError) := by
  unfold parse
  rw [foldl_foldStep_eq]
  simp

theorem not_mem_recognized_of_ne {key : String}
    (k1 : key ≠ "Uptime") (k2 : key ≠ "Total Accesses")
    (k3 : key ≠ "Total kBytes") (k4 : key ≠ "Total Duration")
    (k5 : key ≠ "CPUUser") (k6 : key ≠ "CPUSystem")
    (k7 : key ≠ "CPUChildrenUser") (k8 : key ≠ "CPUChildrenSystem")
    (k9 : key ≠ "CPULoad") (k10 : key ≠ "IdleWorkers")
    (k11 : key ≠ "BusyWorkers") (k12 : key ≠ "ConnsTotal")
    (k13 : key ≠ "ConnsAsyncWriting") (k14 : key ≠ "ConnsAsyncClosing")
    (k15 : key ≠ "ConnsAsyncKeepAlive") (k16 : key ≠ "Scoreboard") :
    key ∉ recognizedKeys := by
  intro hm
  simp only [recognizedKeys, numericKeys, List.mem_append, List.mem_cons,
    List.not_mem_nil, or_false] at hm
  rcases hm with e|e|e|e|e|e|e|e|e|e|e|e|e|e|e|e <;> simp_all

theorem line_to_metrics_not_recognized (key : String) (value : List Char)
    (ns : String) (now : Nat) (tags : TagMap) (ord : List (Char × String))
    (h : key ∉ recognizedKeys) :
    line_to_metrics key value ns now tags ord = .none := by
  have k1 : key ≠ "Uptime" := fun e => h (by rw [e]; decide)
  have k2 : key ≠ "Total Accesses" := fun e => h (by rw [e]; decide)
  have k3 : key ≠ "Total kBytes" := fun e => h (by rw [e]; decide)
  have k4 : key ≠ "Total Duration" := fun e => h (by rw [e]; decide)
  have k5 : key ≠ "CPUUser" := fun e => h (by rw [e]; decide)
  have k6 : key ≠ "CPUSystem" := fun e => h (by rw [e]; decide)
  have k7 : key ≠ "CPUChildrenUser" := fun e => h (by rw [e]; decide)
  have k8 : key ≠ "CPUChildrenSystem" := fun e => h (by rw [e]; decide)
  have k9 : key ≠ "CPULoad" := fun e => h (by rw [e]; decide)
  have k10 : key ≠ "IdleWorkers" := fun e => h (by rw [e]; decide)
  have k11 : key ≠ "BusyWorkers" := fun e => h (by rw [e]; decide)
  have k12 : key ≠ "ConnsTotal" := fun e => h (by rw [e]; decide)
  have k13 : key ≠ "ConnsAsyncWriting" := fun e => h (by rw [e]; decide)
  have k14 : key ≠ "ConnsAsyncClosing" := fun e => h (by rw [e]; decide)
  have k15 : key ≠ "ConnsAsyncKeepAlive" := fun e => h (by rw [e]; decide)
  have k16 : key ≠ "Scoreboard" := fun e => h (by rw [e]; decide)
  unfold line_to_metrics
  rw [if_neg k1, if_neg k2, if_neg k3, if_neg k4, if_neg k5, if_neg k6,
    if_neg k7, if_neg k8, if_neg k9, if_neg k10, if_neg k11, if_neg k12,
    if_neg k13, if_neg k14, if_neg k15, if_neg k16]

theorem line_to_metrics_ord_irrel {key : String} (value : List Char)
    (ns : String) (now : Nat) (tags : TagMap) (h : key ≠ "Scoreboard")
    (o1 o2 : List (Char × String)) :
    line_to_metrics key value ns now tags o1 =
      line_to_metrics key value ns now tags o2 := by

  by_cases c1 : key = "Uptime"
  · subst c1; rfl
  by_cases c2 : key = "Total Accesses"
  · subst c2; rfl
  by_cases c3 : key = "Total kBytes"
  · subst c3; rfl
  by_cases c4 : key = "Total Duration"
  · subst c4; rfl
  by_cases c5 : key = "CPUUser"
  · subst c5; rfl
  by_cases c6 : key = "CPUSystem"
  · subst c6; rfl
  by_cases c7 : key = "CPUChildrenUser"
  · subst c7; rfl
  by_cases c8 : key = "CPUChildrenSystem"
  · subst c8; rfl
  by_cases c9 : key = "CPULoad"
  · subst c9; rfl
  by_cases c10 : key = "IdleWorkers"
  · subst c10; rfl
  by_cases c11 : key = "BusyWorkers"
  · subst c11; rfl
  by_cases c12 : key = "ConnsTotal"
  · subst c12; rfl
  by_cases c13 : key = "ConnsAsyncWriting"
  · subst c13; rfl
  by_cases c14 : key = "ConnsAsyncClosing"
  · subst c14; rfl
  by_cases c15 : key = "ConnsAsyncKeepAlive"
  · subst c15; rfl
  by_cases c16 : key = "Scoreboard"
  · exact absurd c16 h
  have hnr : key ∉ recognizedKeys :=
    not_mem_recognized_of_ne c1 c2 c3 c4 c5 c6 c7 c8 c9 c10 c11 c12 c13 c14 c15 c16
  rw [line_to_metrics_not_recognized key value ns now tags o1 hnr,
    line_to_metrics_not_recognized key value ns now tags o2 hnr]

theorem line_to_metrics_Uptime (value : List Char) (ns : String)
    (now : Nat) (tags : TagMap) (ord : List (Char × String)) :
    line_to_metrics "Uptime" value ns now tags ord =
      (match parseF64 value with
       | some v => .metrics
           [{ name := encode_namespace ns "uptime_seconds_total",
              timestamp := some now, tags := some tags, kind := .absolute,
              value := .counter v },
            { name := encode_namespace ns "up", timestamp := some now,
              tags := some tags, kind := .absolute,
              value := .counter (.finite 1) }]
       | none => .err { key := "Uptime" }) :=
  rfl

theorem line_to_metrics_TotalAccesses (value : List Char) (ns : String)
    (now : Nat) (tags : TagMap) (ord : List (Char × String)) :
    line_to_metrics "Total Accesses" value ns now tags ord =
      (match parseF64 value with
       | some v => .metrics
           [{ name := encode_namespace ns "access_total", timestamp := some now,
              tags := some tags, kind := .absolute, value := .counter v }]
       | none => .err { key := "Total Accesses" }) :=
  rfl

theorem line_to_metrics_TotalKBytes (value : List Char) (ns : String)
    (now : Nat) (tags : TagMap) (ord : List (Char × String)) :
    line_to_metrics "Total kBytes" value ns now tags ord =
      (match parseU32 value with
       | some v => .metrics
           [{ name := encode_namespace ns "sent_bytes_total",
              timestamp := some now, tags := some tags, kind := .absolute,
              value := .counter (.finite ((v * 1024 % 4294967296 : Nat) : ℚ)) }]
       | none => .err { key := "Total kBytes" }) :=
  rfl

theorem line_to_metrics_TotalDuration (value : List Char) (ns : String)
    (now : Nat) (tags : TagMap) (ord : List (Char × String)) :
    line_to_metrics "Total Duration" value ns now tags ord =
      (match parseF64 value with
       | some v => .metrics
           [{ name := encode_namespace ns "duration_seconds_total", timestamp := some now,
              tags := some tags, kind := .absolute, value := .counter v }]
       | none => .err { key := "Total Duration" }) :=
  rfl

theorem line_to_metrics_CPUUser (value : List Char) (ns : String)
    (now : Nat) (tags : TagMap) (ord : List (Char × String)) :
    line_to_metrics "CPUUser" value ns now tags ord =
      (match parseF64 value with
       | some v => .metrics
           [{ name := encode_namespace ns "cpu_seconds_total", timestamp := some now,
              tags := some (insertTag tags "type" "user"), kind := .absolute, value := .gauge v }]
       | none => .err { key := "CPUUser" }) :=
  rfl

theorem line_to_metrics_CPUSystem (value : List Char) (ns : String)
    (now : Nat) (tags : TagMap) (ord : List (Char × String)) :
    line_to_metrics "CPUSystem" value ns now tags ord =
      (match parseF64 value with
       | some v => .metrics
           [{ name := encode_namespace ns "cpu_seconds_total", timestamp := some now,
              tags := some (insertTag tags "type" "system"), kind := .absolute, value := .gauge v }]
       | none => .err { key := "CPUSystem" }) :=
  rfl

theorem line_to_metrics_CPUChildrenUser (value : List Char) (ns : String)
    (now : Nat) (tags : TagMap) (ord : List (Char × String)) :
    line_to_metrics "CPUChildrenUser" value ns now tags ord =
      (match parseF64 value with
       | some v => .metrics
           [{ name := encode_namespace ns "cpu_seconds_total", timestamp := some now,
              tags := some (insertTag tags "type" "children_user"), kind := .absolute, value := .gauge v }]
       | none => .err { key := "CPUChildrenUser" }) :=
  rfl

theorem line_to_metrics_CPUChildrenSystem (value : List Char) (ns : String)
    (now : Nat) (tags : TagMap) (ord : List (Char × String)) :
    line_to_metrics "CPUChildrenSystem" value ns now tags ord =
      (match parseF64 value with
       | some v => .metrics
           [{ name := encode_namespace ns "cpu_seconds_total", timestamp := some now,
              tags := some (insertTag tags "type" "children_system"), kind := .absolute, value := .gauge v }]
       | none => .err { key := "CPUChildrenSystem" }) :=
  rfl

theorem line_to_metrics_CPULoad (value : List Char) (ns : String)
    (now : Nat) (tags : TagMap) (ord : List (Char × String)) :
    line_to_metrics "CPULoad" value ns now tags ord =
      (match parseF64 value with
       | some v => .metrics
           [{ name := encode_namespace ns "cpu_load", timestamp := some now,
              tags := some tags, kind := .absolute, value := .gauge v }]
       | none => .err { key := "CPULoad" }) :=
  rfl

theorem line_to_metrics_IdleWorkers (value : List Char) (ns : String)
    (now : Nat) (tags : TagMap) (ord : List (Char × String)) :
    line_to_metrics "IdleWorkers" value ns now tags ord =
      (match parseF64 value with
       | some v => .metrics
           [{ name := encode_namespace ns "workers", timestamp := some now,
              tags := some (insertTag tags "state" "idle"), kind := .absolute, value := .gauge v }]
       | none => .err { key := "IdleWorkers" }) :=
  rfl

theorem line_to_metrics_BusyWorkers (value : List Char) (ns : String)
    (now : Nat) (tags : TagMap) (ord : List (Char × String)) :
    line_to_metrics "BusyWorkers" value ns now tags ord =
      (match parseF64 value with
       | some v => .metrics
           [{ name := encode_namespace ns "workers", timestamp := some now,
              tags := some (insertTag tags "state" "busy"), kind := .absolute, value := .gauge v }]
       | none => .err { key := "BusyWorkers" }) :=
  rfl

theorem line_to_metrics_ConnsTotal (value : List Char) (ns : String)
    (now : Nat) (tags : TagMap) (ord : List (Char × String)) :
    line_to_metrics "ConnsTotal" value ns now tags ord =
      (match parseF64 value with
       | some v => .metrics
           [{ name := encode_namespace ns "connections", timestamp := some now,
              tags := some (insertTag tags "state" "total"), kind := .absolute, value := .gauge v }]
       | none => .err { key := "ConnsTotal" }) :=
  rfl

theorem line_to_metrics_ConnsAsyncWriting (value : List Char) (ns : String)
    (now : Nat) (tags : TagMap) (ord : List (Char × String)) :
    line_to_metrics "ConnsAsyncWriting" value ns now tags ord =
      (match parseF64 value with
       | some v => .metrics
           [{ name := encode_namespace ns "connections", timestamp := some now,
              tags := some (insertTag tags "state" "writing"), kind := .absolute, value := .gauge v }]
       | none => .err { key := "ConnsAsyncWriting" }) :=
  rfl

theorem line_to_metrics_ConnsAsyncClosing (value : List Char) (ns : String)
    (now : Nat) (tags : TagMap) (ord : List (Char × String)) :
    line_to_metrics "ConnsAsyncClosing" value ns now tags ord =
      (match parseF64 value with
       | some v => .metrics
           [{ name := encode_namespace ns "connections", timestamp := some now,
              tags := some (insertTag tags "state" "closing"), kind := .absolute, value := .gauge v }]
       | none => .err { key := "ConnsAsyncClosing" }) :=
  rfl

theorem line_to_metrics_ConnsAsyncKeepAlive (value : List Char) (ns : String)
    (now : Nat) (tags : TagMap) (ord : List (Char × String)) :
    line_to_metrics "ConnsAsyncKeepAlive" value ns now tags ord =
      (match parseF64 value with
       | some v => .metrics
           [{ name := encode_namespace ns "connections", timestamp := some now,
              tags := some (insertTag tags "state" "keepalive"), kind := .absolute, value := .gauge v }]
       | none => .err { key := "ConnsAsyncKeepAlive" }) :=
  rfl

theorem line_to_metrics_scoreboard (value : List Char) (ns : String)
    (now : Nat) (tags : TagMap) (ord : List (Char × String)) :
    line_to_metrics "Scoreboard" value ns now tags ord =
      .metrics (ord.map fun p =>
        to_metric ns now tags p.2 (value.count p.1 % 4294967296)) :=
  rfl

theorem stripLineEnding_no_newline (l : List Char) (h : '\n' ∉ l) :
    stripLineEnding l = l := by
  unfold stripLineEnding
  split
  · next heq =>
    exfalso
    obtain ⟨hne, he⟩ := List.mem_getLast?_eq_getLast (show '\n' ∈ l.getLast? by rw [heq]; rfl)
    exact h (he ▸ List.getLast_mem hne)
  · rfl

theorem splitInclusiveNL_no_newline (l : List Char) (h : '\n' ∉ l) :
    ∀ acc : List Char, splitInclusiveNL acc l =
      if (acc.reverse ++ l).isEmpty then [] else [acc.reverse ++ l] := by
  induction l with
  | nil =>
    intro acc
    simp [splitInclusiveNL, List.isEmpty_iff]
  | cons c rest ih =>
    intro acc
    have hc : ¬c = '\n' := fun e => h (by rw [← e]; exact List.mem_cons_self c rest)
    rw [splitInclusiveNL, if_neg hc,
      ih (fun hm => h (List.mem_cons_of_mem c hm)) (c :: acc)]
    simp

theorem linesOf_no_newline (l : List Char) (h : '\n' ∉ l) :
    linesOf l = if l.isEmpty then [] else [l] := by
  cases l with
  | nil => rfl
  | cons c rest =>
    rw [linesOf, splitInclusiveNL_no_newline _ h []]
    simp [stripLineEnding_no_newline _ h]

theorem forall2_map_of_forall {α β : Type} (l : List α) (f g : α → β)
    (R : β → β → Prop) (h : ∀ x ∈ l, R (f x) (g x)) :
    List.Forall₂ R (l.map f) (l.map g) := by
  induction l with
  | nil => exact .nil
  | cons a l ih =>
    exact .cons (h a (List.mem_cons_self a l))
      (ih fun x hx => h x (List.mem_cons_of_mem a hx))

theorem filterMap_map_congr {α β γ : Type} (l : List α) (f g : α → β)
    (p : β → Option γ) (h : ∀ x ∈ l, p (f x) = p (g x)) :
    (l.map f).filterMap p = (l.map g).filterMap p := by
  induction l with
  | nil => rfl
  | cons a l ih =>
    rw [List.map_cons, List.map_cons, List.filterMap_cons, List.filterMap_cons,
      h a (List.mem_cons_self a l), ih fun x hx => h x (List.mem_cons_of_mem a hx)]

theorem ltm_metrics_perm (key : String) (value : List Char) (ns : String)
    (now : Nat) (tags : TagMap) {o1 o2 : List (Char × String)}
    (h12 : o1.Perm o2) :
    (lineMetrics (line_to_metrics key value ns now tags o1)).Perm
      (lineMetrics (line_to_metrics key value ns now tags o2)) := by
  by_cases hk : key = "Scoreboard"
  · subst hk
    rw [line_to_metrics_scoreboard, line_to_metrics_scoreboard]
    exact h12.map _
  · rw [line_to_metrics_ord_irrel value ns now tags hk o1 o2]

theorem ltm_error_ord_irrel (key : String) (value : List Char) (ns : String)
    (now : Nat) (tags : TagMap) (o1 o2 : List (Char × String)) :
    lineError (line_to_metrics key value ns now tags o1) =
      lineError (line_to_metrics key value ns now tags o2) := by
  by_cases hk : key = "Scoreboard"
  · subst hk
    rw [line_to_metrics_scoreboard, line_to_metrics_scoreboard]
    rfl
  · rw [line_to_metrics_ord_irrel value ns now tags hk o1 o2]

theorem parse_ord_congr (packet : List Char) (ns : String) (now : Nat)
    (tags : TagMap) {o1 o2 : List (Char × String)} (h : o1.Perm o2) :
    (parse packet ns now tags o1).1.Perm (parse packet ns now tags o2).1 ∧
    (parse packet ns now tags o1).2 = (parse packet ns now tags o2).2 := by
  rw [parse_eq, parse_eq]
  refine ⟨?_, ?_⟩
  · apply List.Perm.flatten_congr
    rw [List.map_map, List.map_map]
    exact forall2_map_of_forall _ _ _ _
      (fun kv _ => ltm_metrics_perm kv.1 kv.2 ns now tags h)
  · exact filterMap_map_congr _ _ _ _
      (fun kv _ => ltm_error_ord_irrel kv.1 kv.2 ns now tags o1 o2)

theorem sum_map_add_nat {α : Type} (l : List α) (f g : α → Nat) :
    (l.map fun x => f x + g x).sum = (l.map f).sum + (l.map g).sum := by
  induction l with
  | nil => simp
  | cons a l ih => simp [ih]; omega

theorem sum_indicator_eq_count {α : Type} [DecidableEq α] (a : α)
    (cs : List α) :
    (cs.map fun c => if a = c then 1 else 0).sum = cs.count a := by
  induction cs with
  | nil => simp
  | cons c cs ih =>
    simp only [List.map_cons, List.sum_cons, List.count_cons, ih, beq_iff_eq]
    have hiff : (if c = a then (1 : Nat) else 0) = if a = c then 1 else 0 := by
      by_cases h : a = c
      · simp [h]
      · simp [h, Ne.symm h]
    rw [hiff]
    exact Nat.add_comm _ _

theorem sum_counts_eq_countP (cs : List Char) (hnd : cs.Nodup)
    (l : List Char) :
    (cs.map fun c => l.count c).sum = l.countP (fun c => c ∈ cs) := by
  induction l with
  | nil => simp
  | cons a l ih =>
    have h1 : (cs.map fun c => (a :: l).count c) =
        cs.map fun c => l.count c + if a = c then 1 else 0 := by
      apply List.map_congr_left
      intro c _
      simp [List.count_cons]
    rw [h1, sum_map_add_nat, ih, sum_indicator_eq_count, List.countP_cons]
    congr 1
    by_cases hm : a ∈ cs
    · simp [hm, List.count_eq_one_of_mem hnd hm]
    · simp [hm, List.count_eq_zero_of_not_mem hm]

/-- The value fails to parse as the numeric type the key's branch expects
(`u32` for `Total kBytes`, `f64` for every other numeric key). -/
def valueParseFails (key : String) (value : List Char) : Prop :=
  if key = "Total kBytes" then parseU32 value = Option.none
  else parseF64 value = Option.none

/-! ## Claim theorems -/

/-- C3: the Report Parser processes all lines regardless of per-line
failures: its metric list is exactly the concatenation of the per-line
metric lists and its error list is exactly the list of the per-line
errors, so a failing line never removes or prevents metrics of any other
line. -/
theorem parse_processes_all_lines (packet : List Char) (ns : String)
    (now : Nat) (tags : TagMap) (ord : List (Char × String)) :
    (parse packet ns now tags ord).1 =
      ((((linesOf packet).filterMap keyValue).map fun kv =>
          line_to_metrics kv.1 kv.2 ns now tags ord).map lineMetrics).flatten ∧
    (parse packet ns now tags ord).2 =
      (((linesOf packet).filterMap keyValue).map fun kv =>
          line_to_metrics kv.1 kv.2 ns now tags ord).filterMap lineError := by
  rw [parse_eq]
  exact ⟨rfl, rfl⟩

/-- C4 (amended): the response handler treats exactly status 200 — not
every 2xx status — as success: on 200 it emits `RequestCompleted` and
hands the body to `Mod.parse` (the stub report parser of `mod.rs`, which
returns no metrics), forwarding that parser's metrics; on every other
status, including other 2xx codes, it emits `ErrorResponse` with the
status code and forwards zero metrics. -/
theorem fetch_status_classification (status : Nat) (body : List Char) :
    handleResponse (.response status body) =
      if status = 200 then
        ([.requestCompleted, .eventReceived 0], [])
      else ([.errorResponse status], []) := by
  unfold handleResponse
  by_cases h : status = 200 <;> simp [h, Mod.parse]

/-- C4 counterexample: status 204 is 2xx, yet the handler emits
`ErrorResponse` and produces no metrics and no `RequestCompleted`
event, contradicting the claim that every 2xx response completes. -/
theorem fetch_status_2xx_cex :
    (200 ≤ 204 ∧ 204 < 300) ∧
    handleResponse (.response 204 []) = ([ScrapeEvent.errorResponse 204], []) ∧
    ScrapeEvent.requestCompleted ∉ (handleResponse (.response 204 [])).1 := by
  refine ⟨by decide, rfl, by decide⟩

/-- C6: a `Total kBytes` line whose value parses as an unsigned 32-bit
integer `v` yields exactly one Absolute Counter named
`sent_bytes_total` (namespace-encoded) whose value is `v * 1024`
computed in 32-bit unsigned arithmetic. -/
theorem total_kbytes_times_1024 (value : List Char) (v : Nat) (ns : String)
    (now : Nat) (tags : TagMap) (ord : List (Char × String))
    (h : parseU32 value = some v) :
    line_to_metrics "Total kBytes" value ns now tags ord =
      .metrics [{ name := encode_namespace ns "sent_bytes_total",
                  timestamp := some now, tags := some tags, kind := .absolute,
                  value := .counter (.finite ((v * 1024 % 4294967296 : Nat) : ℚ)) }] := by
  rw [line_to_metrics_TotalKBytes, h]

/-- Witness for C6 at the sample value `10`: `10 * 1024 = 10240`. -/
theorem total_kbytes_times_1024_check :
    line_to_metrics "Total kBytes" "10".toList "apache" 0 [] scoreboardStates =
      .metrics [{ name := encode_namespace "apache" "sent_bytes_total",
                  timestamp := some 0, tags := some [], kind := .absolute,
                  value := .counter (.finite ((10 * 1024 % 4294967296 : Nat) : ℚ)) }] :=
  total_kbytes_times_1024 "10".toList 10 "apache" 0 [] scoreboardStates
    (by decide)

/-- C7 counterexample: the source's match recognizes 16 keys, not 17 as
the claim counts. -/
theorem recognized_keys_count_cex :
    recognizedKeys.length = 16 ∧ ¬recognizedKeys.length = 17 := by decide

/-- C7 (amended): a line whose key is not one of the 16 recognized keys,
or which has no colon at all, contributes zero metrics and zero errors
to the Report Parser's output, for any value content. -/
theorem unrecognized_line_no_output (l : List Char) (ns : String) (now : Nat)
    (tags : TagMap) (ord : List (Char × String)) (hnl : '\n' ∉ l)
    (h : ∀ kv, keyValue l = some kv → kv.1 ∉ recognizedKeys) :
    parse l ns now tags ord = ([], []) := by
  rw [parse_eq, linesOf_no_newline l hnl]
  by_cases he : l.isEmpty
  · rw [if_pos he]
    rfl
  · rw [if_neg he]
    cases hkv : keyValue l with
    | none => simp [hkv]
    | some kv =>
      have hnone := line_to_metrics_not_recognized kv.1 kv.2 ns now
        tags ord (h kv hkv)
      simp [hkv, hnone, lineMetrics, lineError]

/-- Witness for C7 (amended) at a colon-free line. -/
theorem unrecognized_line_no_output_check :
    parse "no colon in this line".toList "apache" 0 [] scoreboardStates =
      ([], []) :=
  unrecognized_line_no_output "no colon in this line".toList "apache" 0 []
    scoreboardStates (by decide)
    (by
      intro kv hkv
      rw [show keyValue "no colon in this line".toList = Option.none from rfl]
        at hkv
      exact Option.noConfusion hkv)

/-- C10: the `Scoreboard` branch can never return an `Error` or `None`:
for every value string it returns `Metrics` with exactly 11 gauges, and
when the string contains no known state character all 11 gauges are
zero. -/
theorem scoreboard_never_errors (value : List Char) (ns : String) (now : Nat)
    (tags : TagMap) (ord : List (Char × String))
    (hord : ord.Perm scoreboardStates) :
    ∃ ms, line_to_metrics "Scoreboard" value ns now tags ord = .metrics ms ∧
      ms.length = 11 ∧
      ((∀ c ∈ value, c ∉ knownStateChars) →
        ∀ m ∈ ms, m.value = .gauge (.finite 0)) := by
  refine ⟨_, line_to_metrics_scoreboard value ns now tags ord, ?_, ?_⟩
  · rw [List.length_map, hord.length_eq]
    rfl
  · intro hnone m hm
    obtain ⟨p, hp, rfl⟩ := List.mem_map.mp hm
    have hpc : p.1 ∈ knownStateChars :=
      List.mem_map.mpr ⟨p, hord.mem_iff.mp hp, rfl⟩
    have hz : value.count p.1 = 0 :=
      List.count_eq_zero.mpr fun hmem => hnone p.1 hmem hpc
    simp [to_metric, hz]

/-- Witness for C10 at a value with only unknown characters. -/
theorem scoreboard_never_errors_check :
    ∃ ms, line_to_metrics "Scoreboard" "xyz".toList "apache" 0 []
        scoreboardStates = .metrics ms ∧
      ms.length = 11 ∧
      ((∀ c ∈ "xyz".toList, c ∉ knownStateChars) →
        ∀ m ∈ ms, m.value = .gauge (.finite 0)) :=
  scoreboard_never_errors "xyz".toList "apache" 0 [] scoreboardStates
    (List.Perm.refl _)

/-- C9 (amended): two runs of the Report Parser on the same body,
namespace, timestamp and base tags produce identical error lists, and
metric lists that are equal up to order — the order of the 11 scoreboard
gauges may differ between runs because they are collected from a hash
map with unspecified iteration order. -/
theorem parse_two_runs_agree (packet : List Char) (ns : String) (now : Nat)
    (tags : TagMap) (o1 o2 : List (Char × String))
    (h1 : o1.Perm scoreboardStates) (h2 : o2.Perm scoreboardStates) :
    (parse packet ns now tags o1).1.Perm (parse packet ns now tags o2).1 ∧
    (parse packet ns now tags o1).2 = (parse packet ns now tags o2).2 :=
  parse_ord_congr packet ns now tags (h1.trans h2.symm)

/-- Witness for C9 (amended) at the sample body. -/
theorem parse_two_runs_agree_check :
    (parse sampleBody "apache" 0 [] scoreboardStates).1.Perm
      (parse sampleBody "apache" 0 [] scoreboardStates).1 ∧
    (parse sampleBody "apache" 0 [] scoreboardStates).2 =
      (parse sampleBody "apache" 0 [] scoreboardStates).2 :=
  parse_two_runs_agree sampleBody "apache" 0 [] scoreboardStates
    scoreboardStates (List.Perm.refl _) (List.Perm.refl _)

/-- C9 counterexample: two valid iteration orders of the scoreboard hash
map yield different (differently ordered) outputs for the same input,
so the two runs are not identical as the claim states. -/
theorem parse_two_runs_order_cex :
    scoreboardStates.reverse.Perm scoreboardStates ∧
    parse "Scoreboard: _".toList "apache" 0 [] scoreboardStates ≠
      parse "Scoreboard: _".toList "apache" 0 [] scoreboardStates.reverse := by
  constructor
  · exact List.reverse_perm scoreboardStates
  · decide

/-- C5: every recognized numeric key given a value that fails to parse
as the expected numeric type yields exactly one `Error` whose `key`
field equals the input key, and zero metrics. -/
theorem numeric_key_parse_error (key : String) (value : List Char)
    (ns : String) (now : Nat) (tags : TagMap) (ord : List (Char × String))
    (hk : key ∈ numericKeys) (hfail : valueParseFails key value) :
    line_to_metrics key value ns now tags ord = .err { key := key } := by
  fin_cases hk
  · simp only [valueParseFails] at hfail
    rw [if_neg (by decide)] at hfail
    rw [line_to_metrics_Uptime, hfail]
  · simp only [valueParseFails] at hfail
    rw [if_neg (by decide)] at hfail
    rw [line_to_metrics_TotalAccesses, hfail]
  · simp only [valueParseFails] at hfail
    rw [if_pos trivial] at hfail
    rw [line_to_metrics_TotalKBytes, hfail]
  · simp only [valueParseFails] at hfail
    rw [if_neg (by decide)] at hfail
    rw [line_to_metrics_TotalDuration, hfail]
  · simp only [valueParseFails] at hfail
    rw [if_neg (by decide)] at hfail
    rw [line_to_metrics_CPUUser, hfail]
  · simp only [valueParseFails] at hfail
    rw [if_neg (by decide)] at hfail
    rw [line_to_metrics_CPUSystem, hfail]
  · simp only [valueParseFails] at hfail
    rw [if_neg (by decide)] at hfail
    rw [line_to_metrics_CPUChildrenUser, hfail]
  · simp only [valueParseFails] at hfail
    rw [if_neg (by decide)] at hfail
    rw [line_to_metrics_CPUChildrenSystem, hfail]
  · simp only [valueParseFails] at hfail
    rw [if_neg (by decide)] at hfail
    rw [line_to_metrics_CPULoad, hfail]
  · simp only [valueParseFails] at hfail
    rw [if_neg (by decide)] at hfail
    rw [line_to_metrics_IdleWorkers, hfail]
  · simp only [valueParseFails] at hfail
    rw [if_neg (by decide)] at hfail
    rw [line_to_metrics_BusyWorkers, hfail]
  · simp only [valueParseFails] at hfail
    rw [if_neg (by decide)] at hfail
    rw [line_to_metrics_ConnsTotal, hfail]
  · simp only [valueParseFails] at hfail
    rw [if_neg (by decide)] at hfail
    rw [line_to_metrics_ConnsAsyncWriting, hfail]
  · simp only [valueParseFails] at hfail
    rw [if_neg (by decide)] at hfail
    rw [line_to_metrics_ConnsAsyncClosing, hfail]
  · simp only [valueParseFails] at hfail
    rw [if_neg (by decide)] at hfail
    rw [line_to_metrics_ConnsAsyncKeepAlive, hfail]

/-- Witness for C5 at `Uptime: notanumber`. -/
theorem numeric_key_parse_error_check :
    line_to_metrics "Uptime" "notanumber".toList "apache" 0 []
        scoreboardStates = .err { key := "Uptime" } :=
  numeric_key_parse_error "Uptime" "notanumber".toList "apache" 0 []
    scoreboardStates (by decide)
    (by
      simp only [valueParseFails]
      rw [if_neg (by decide)]
      decide)


unseal Rat.mul Rat.inv Rat.add Rat.sub in
/-- C1: for the six-line sample body with namespace `"apache"` and any
timestamp and base tag map, the Report Parser returns zero parse errors
and exactly the expected 17 metrics: `uptime_seconds_total`=123 and
`up`=1 (Counters), `access_total`=50 (Counter), `sent_bytes_total`=10240
(Counter), `workers` busy=2 and idle=8 (Gauges), and 11 `scoreboard`
gauges with waiting=3, sending=2, keepalive=2, open=2, all others 0
(equality of the metric lists up to the scoreboard hash-map iteration
order). -/
theorem sample_body_parse (now : Nat) (tags : TagMap)
    (ord : List (Char × String)) (hord : ord.Perm scoreboardStates) :
    (parse sampleBody "apache" now tags ord).2 = [] ∧
    (parse sampleBody "apache" now tags ord).1.Perm
      (sampleExpected now tags) := by
  have hcanon : parse sampleBody "apache" now tags scoreboardStates =
      (sampleExpected now tags, []) := rfl
  obtain ⟨hm, he⟩ := parse_ord_congr sampleBody "apache" now tags hord
  refine ⟨?_, ?_⟩
  · rw [he, hcanon]
  · have h1 : (parse sampleBody "apache" now tags scoreboardStates).1 =
        sampleExpected now tags := by rw [hcanon]
    exact h1 ▸ hm

/-- Witness for C1 at timestamp 0 and empty base tags. -/
theorem sample_body_parse_check :
    (parse sampleBody "apache" 0 [] scoreboardStates).2 = [] ∧
    (parse sampleBody "apache" 0 [] scoreboardStates).1.Perm
      (sampleExpected 0 []) :=
  sample_body_parse 0 [] scoreboardStates (List.Perm.refl _)

theorem gaugeSum_to_metric_map (ns : String) (now : Nat) (tags : TagMap)
    (g : Char × String → Nat) (l : List (Char × String)) :
    gaugeSum (l.map fun p => to_metric ns now tags p.2 (g p)) =
      (l.map fun p => ((g p : ℚ))).sum := by
  unfold gaugeSum
  rw [List.map_map]
  apply congrArg List.sum
  apply List.map_congr_left
  intro p _
  rfl

/-- C2 counterexample: the Scoreboard occurrence counters are `u32` and
wrap modulo `2 ^ 32`, so for a value of `2 ^ 32` waiting characters the
waiting gauge is 0 and the sum of the 11 gauge values (0) differs from
the number of known state characters (`2 ^ 32`), refuting the claimed
sum equality for every input string. -/
theorem scoreboard_sum_wrap_cex :
    ∃ ms, line_to_metrics "Scoreboard" (List.replicate 4294967296 '_')
        "apache" 0 [] scoreboardStates = .metrics ms ∧
      gaugeSum ms ≠
        ((List.replicate 4294967296 '_').countP
          (fun c => c ∈ knownStateChars) : ℚ) := by
  refine ⟨_, line_to_metrics_scoreboard (List.replicate 4294967296 '_')
    "apache" 0 [] scoreboardStates, ?_⟩
  rw [gaugeSum_to_metric_map "apache" 0 []
    (fun p => (List.replicate 4294967296 '_').count p.1 % 4294967296)
    scoreboardStates]
  have hz : ∀ p ∈ scoreboardStates,
      ((((List.replicate 4294967296 '_').count p.1 % 4294967296 : Nat) : ℚ)) =
        ((fun _ => (0 : ℚ)) p) := by
    intro p hp
    by_cases h : p.1 = '_'
    · rw [h, List.count_replicate_self, Nat.mod_self, Nat.cast_zero]
    · rw [List.count_eq_zero_of_not_mem
        (fun hm => h (List.eq_of_mem_replicate hm)), Nat.zero_mod,
        Nat.cast_zero]
  rw [List.map_congr_left hz]
  have hcp : (List.replicate 4294967296 '_').countP
      (fun c => c ∈ knownStateChars) = 4294967296 := by
    have h1 : (List.replicate 4294967296 '_').countP
        (fun c => c ∈ knownStateChars) =
          (List.replicate 4294967296 '_').length := by
      rw [List.countP_eq_length]
      intro a ha
      rw [List.eq_of_mem_replicate ha]
      decide
    rw [h1, List.length_replicate]
  rw [hcp]
  simp

/-- C2 (amended): a `Scoreboard` line always emits exactly 11 gauges, one
per known state (value 0 for states absent from the string), and every
emitted metric is one of those 11 state gauges, so unknown characters
contribute to no metric and to no error; when every known state
character occurs fewer than `2 ^ 32` times (the occurrence counters are
`u32` and wrap modulo `2 ^ 32`), each gauge carries its state's exact
occurrence count and the sum of the 11 gauge values equals the number of
characters of the value that are among the 11 known state characters. -/
theorem scoreboard_sum_property (value : List Char) (ns : String) (now : Nat)
    (tags : TagMap) (ord : List (Char × String))
    (hord : ord.Perm scoreboardStates)
    (hbound : ∀ c ∈ knownStateChars, value.count c < 4294967296) :
    ∃ ms, line_to_metrics "Scoreboard" value ns now tags ord = .metrics ms ∧
      ms.length = 11 ∧
      (∀ p ∈ scoreboardStates,
        to_metric ns now tags p.2 (value.count p.1) ∈ ms) ∧
      (∀ m ∈ ms, ∃ p ∈ scoreboardStates,
        m = to_metric ns now tags p.2 (value.count p.1)) ∧
      gaugeSum ms = (value.countP (fun c => c ∈ knownStateChars) : ℚ) := by
  have hmapeq : (ord.map fun p =>
      to_metric ns now tags p.2 (value.count p.1 % 4294967296)) =
        ord.map fun p => to_metric ns now tags p.2 (value.count p.1) := by
    apply List.map_congr_left
    intro p hp
    rw [Nat.mod_eq_of_lt
      (hbound p.1 (List.mem_map.mpr ⟨p, hord.mem_iff.mp hp, rfl⟩))]
  refine ⟨ord.map fun p => to_metric ns now tags p.2 (value.count p.1),
    (line_to_metrics_scoreboard value ns now tags ord).trans
      (congrArg LineResult.metrics hmapeq), ?_, ?_, ?_, ?_⟩
  · rw [List.length_map, hord.length_eq]
    rfl
  · intro p hp
    exact List.mem_map.mpr ⟨p, hord.mem_iff.mpr hp, rfl⟩
  · intro m hm
    obtain ⟨p, hp, rfl⟩ := List.mem_map.mp hm
    exact ⟨p, hord.mem_iff.mp hp, rfl⟩
  · calc gaugeSum (ord.map fun p => to_metric ns now tags p.2 (value.count p.1))
        = (ord.map fun p => ((value.count p.1 : ℚ))).sum :=
          gaugeSum_to_metric_map ns now tags (fun p => value.count p.1) ord
      _ = (scoreboardStates.map fun p => ((value.count p.1 : ℚ))).sum :=
          List.Perm.sum_eq (hord.map _)
      _ = ((knownStateChars.map fun c => value.count c).map
            fun n : Nat => (n : ℚ)).sum := by
          rw [List.map_map]
          rfl
      _ = (((knownStateChars.map fun c => value.count c).sum : Nat) : ℚ) :=
          (Nat.cast_list_sum _).symm
      _ = (value.countP (fun c => c ∈ knownStateChars) : ℚ) := by
          rw [sum_counts_eq_countP knownStateChars (by decide) value]

/-- Witness for C2 (amended) at the value `__SXY` (two waiting, one
starting, two unknown characters; every count below `2 ^ 32`). -/
theorem scoreboard_sum_property_check :
    ∃ ms, line_to_metrics "Scoreboard" "__SXY".toList "apache" 0 []
        scoreboardStates = .metrics ms ∧
      ms.length = 11 ∧
      (∀ p ∈ scoreboardStates,
        to_metric "apache" 0 [] p.2 ("__SXY".toList.count p.1) ∈ ms) ∧
      (∀ m ∈ ms, ∃ p ∈ scoreboardStates,
        m = to_metric "apache" 0 [] p.2 ("__SXY".toList.count p.1)) ∧
      gaugeSum ms = ("__SXY".toList.countP (fun c => c ∈ knownStateChars) : ℚ) :=
  scoreboard_sum_property "__SXY".toList "apache" 0 [] scoreboardStates
    (List.Perm.refl _) (by decide)

/-- C8: every metric emitted by the Line Parser, for any key, value,
namespace, timestamp and base tag map, has Absolute kind, the
caller-supplied timestamp, a namespace-encoded name from the fixed
suffix table, and tags equal to the caller-supplied base tags plus at
most one fixed key/value pair from the fixed tag table. -/
theorem emitted_metric_invariants (key : String) (value : List Char)
    (ns : String) (now : Nat) (tags : TagMap) (ord : List (Char × String))
    (hord : ord.Perm scoreboardStates) (ms : List Metric)
    (h : line_to_metrics key value ns now tags ord = .metrics ms) :
    ∀ m ∈ ms, m.kind = .absolute ∧ m.timestamp = some now ∧
      (∃ suffix ∈ metricSuffixes, m.name = encode_namespace ns suffix) ∧
      (m.tags = some tags ∨
        ∃ p ∈ fixedTagPairs, m.tags = some (insertTag tags p.1 p.2)) := by
  by_cases c1 : key = "Uptime"
  · subst c1
    rw [line_to_metrics_Uptime] at h
    cases hpf : parseF64 value with
    | none =>
      rw [hpf] at h
      exact LineResult.noConfusion h
    | some v =>
      rw [hpf] at h
      injection h with h2
      subst h2
      intro m hm
      rw [List.mem_cons, List.mem_singleton] at hm
      rcases hm with rfl | rfl
      · exact ⟨rfl, rfl, ⟨"uptime_seconds_total", by decide, rfl⟩, Or.inl rfl⟩
      · exact ⟨rfl, rfl, ⟨"up", by decide, rfl⟩, Or.inl rfl⟩
  by_cases c2 : key = "Total Accesses"
  · subst c2
    rw [line_to_metrics_TotalAccesses] at h
    cases hpf : parseF64 value with
    | none =>
      rw [hpf] at h
      exact LineResult.noConfusion h
    | some v =>
      rw [hpf] at h
      injection h with h2
      subst h2
      intro m hm
      rw [List.mem_singleton] at hm
      subst hm
      exact ⟨rfl, rfl, ⟨"access_total", by decide, rfl⟩, Or.inl rfl⟩
  by_cases c3 : key = "Total kBytes"
  · subst c3
    rw [line_to_metrics_TotalKBytes] at h
    cases hpf : parseU32 value with
    | none =>
      rw [hpf] at h
      exact LineResult.noConfusion h
    | some v =>
      rw [hpf] at h
      injection h with h2
      subst h2
      intro m hm
      rw [List.mem_singleton] at hm
      subst hm
      exact ⟨rfl, rfl, ⟨"sent_bytes_total", by decide, rfl⟩, Or.inl rfl⟩
  by_cases c4 : key = "Total Duration"
  · subst c4
    rw [line_to_metrics_TotalDuration] at h
    cases hpf : parseF64 value with
    | none =>
      rw [hpf] at h
      exact LineResult.noConfusion h
    | some v =>
      rw [hpf] at h
      injection h with h2
      subst h2
      intro m hm
      rw [List.mem_singleton] at hm
      subst hm
      exact ⟨rfl, rfl, ⟨"duration_seconds_total", by decide, rfl⟩, Or.inl rfl⟩
  by_cases c5 : key = "CPUUser"
  · subst c5
    rw [line_to_metrics_CPUUser] at h
    cases hpf : parseF64 value with
    | none =>
      rw [hpf] at h
      exact LineResult.noConfusion h
    | some v =>
      rw [hpf] at h
      injection h with h2
      subst h2
      intro m hm
      rw [List.mem_singleton] at hm
      subst hm
      exact ⟨rfl, rfl, ⟨"cpu_seconds_total", by decide, rfl⟩, Or.inr ⟨("type", "user"), by decide, rfl⟩⟩
  by_cases c6 : key = "CPUSystem"
  · subst c6
    rw [line_to_metrics_CPUSystem] at h
    cases hpf : parseF64 value with
    | none =>
      rw [hpf] at h
      exact LineResult.noConfusion h
    | some v =>
      rw [hpf] at h
      injection h with h2
      subst h2
      intro m hm
      rw [List.mem_singleton] at hm
      subst hm
      exact ⟨rfl, rfl, ⟨"cpu_seconds_total", by decide, rfl⟩, Or.inr ⟨("type", "system"), by decide, rfl⟩⟩
  by_cases c7 : key = "CPUChildrenUser"
  · subst c7
    rw [line_to_metrics_CPUChildrenUser] at h
    cases hpf : parseF64 value with
    | none =>
      rw [hpf] at h
      exact LineResult.noConfusion h
    | some v =>
      rw [hpf] at h
      injection h with h2
      subst h2
      intro m hm
      rw [List.mem_singleton] at hm
      subst hm
      exact ⟨rfl, rfl, ⟨"cpu_seconds_total", by decide, rfl⟩, Or.inr ⟨("type", "children_user"), by decide, rfl⟩⟩
  by_cases c8 : key = "CPUChildrenSystem"
  · subst c8
    rw [line_to_metrics_CPUChildrenSystem] at h
    cases hpf : parseF64 value with
    | none =>
      rw [hpf] at h
      exact LineResult.noConfusion h
    | some v =>
      rw [hpf] at h
      injection h with h2
      subst h2
      intro m hm
      rw [List.mem_singleton] at hm
      subst hm
      exact ⟨rfl, rfl, ⟨"cpu_seconds_total", by decide, rfl⟩, Or.inr ⟨("type", "children_system"), by decide, rfl⟩⟩
  by_cases c9 : key = "CPULoad"
  · subst c9
    rw [line_to_metrics_CPULoad] at h
    cases hpf : parseF64 value with
    | none =>
      rw [hpf] at h
      exact LineResult.noConfusion h
    | some v =>
      rw [hpf] at h
      injection h with h2
      subst h2
      intro m hm
      rw [List.mem_singleton] at hm
      subst hm
      exact ⟨rfl, rfl, ⟨"cpu_load", by decide, rfl⟩, Or.inl rfl⟩
  by_cases c10 : key = "IdleWorkers"
  · subst c10
    rw [line_to_metrics_IdleWorkers] at h
    cases hpf : parseF64 value with
    | none =>
      rw [hpf] at h
      exact LineResult.noConfusion h
    | some v =>
      rw [hpf] at h
      injection h with h2
      subst h2
      intro m hm
      rw [List.mem_singleton] at hm
      subst hm
      exact ⟨rfl, rfl, ⟨"workers", by decide, rfl⟩, Or.inr ⟨("state", "idle"), by decide, rfl⟩⟩
  by_cases c11 : key = "BusyWorkers"
  · subst c11
    rw [line_to_metrics_BusyWorkers] at h
    cases hpf : parseF64 value with
    | none =>
      rw [hpf] at h
      exact LineResult.noConfusion h
    | some v =>
      rw [hpf] at h
      injection h with h2
      subst h2
      intro m hm
      rw [List.mem_singleton] at hm
      subst hm
      exact ⟨rfl, rfl, ⟨"workers", by decide, rfl⟩, Or.inr ⟨("state", "busy"), by decide, rfl⟩⟩
  by_cases c12 : key = "ConnsTotal"
  · subst c12
    rw [line_to_metrics_ConnsTotal] at h
    cases hpf : parseF64 value with
    | none =>
      rw [hpf] at h
      exact LineResult.noConfusion h
    | some v =>
      rw [hpf] at h
      injection h with h2
      subst h2
      intro m hm
      rw [List.mem_singleton] at hm
      subst hm
      exact ⟨rfl, rfl, ⟨"connections", by decide, rfl⟩, Or.inr ⟨("state", "total"), by decide, rfl⟩⟩
  by_cases c13 : key = "ConnsAsyncWriting"
  · subst c13
    rw [line_to_metrics_ConnsAsyncWriting] at h
    cases hpf : parseF64 value with
    | none =>
      rw [hpf] at h
      exact LineResult.noConfusion h
    | some v =>
      rw [hpf] at h
      injection h with h2
      subst h2
      intro m hm
      rw [List.mem_singleton] at hm
      subst hm
      exact ⟨rfl, rfl, ⟨"connections", by decide, rfl⟩, Or.inr ⟨("state", "writing"), by decide, rfl⟩⟩
  by_cases c14 : key = "ConnsAsyncClosing"
  · subst c14
    rw [line_to_metrics_ConnsAsyncClosing] at h
    cases hpf : parseF64 value with
    | none =>
      rw [hpf] at h
      exact LineResult.noConfusion h
    | some v =>
      rw [hpf] at h
      injection h with h2
      subst h2
      intro m hm
      rw [List.mem_singleton] at hm
      subst hm
      exact ⟨rfl, rfl, ⟨"connections", by decide, rfl⟩, Or.inr ⟨("state", "closing"), by decide, rfl⟩⟩
  by_cases c15 : key = "ConnsAsyncKeepAlive"
  · subst c15
    rw [line_to_metrics_ConnsAsyncKeepAlive] at h
    cases hpf : parseF64 value with
    | none =>
      rw [hpf] at h
      exact LineResult.noConfusion h
    | some v =>
      rw [hpf] at h
      injection h with h2
      subst h2
      intro m hm
      rw [List.mem_singleton] at hm
      subst hm
      exact ⟨rfl, rfl, ⟨"connections", by decide, rfl⟩, Or.inr ⟨("state", "keepalive"), by decide, rfl⟩⟩
  by_cases c16 : key = "Scoreboard"
  · subst c16
    rw [line_to_metrics_scoreboard] at h
    injection h with h2
    subst h2
    intro m hm
    obtain ⟨p, hp, rfl⟩ := List.mem_map.mp hm
    have hps : p ∈ scoreboardStates := hord.mem_iff.mp hp
    refine ⟨rfl, rfl, ⟨"scoreboard", by decide, rfl⟩,
      Or.inr ⟨("state", p.2), ?_, rfl⟩⟩
    exact List.mem_append.mpr (Or.inr (List.mem_map.mpr ⟨p, hps, rfl⟩))
  · have hnr : key ∉ recognizedKeys :=
      not_mem_recognized_of_ne c1 c2 c3 c4 c5 c6 c7 c8 c9 c10 c11 c12 c13 c14
        c15 c16
    rw [line_to_metrics_not_recognized key value ns now tags ord hnr] at h
    exact LineResult.noConfusion h

unseal Rat.mul Rat.inv Rat.add Rat.sub in
/-- Witness for C8 at the single metric of a `CPULoad` line. -/
theorem emitted_metric_invariants_check :
    ({ name := encode_namespace "apache" "cpu_load", timestamp := some 7,
       tags := some ([] : TagMap), kind := .absolute,
       value := .gauge (.finite 1) } : Metric).kind = .absolute ∧
    ({ name := encode_namespace "apache" "cpu_load", timestamp := some 7,
       tags := some ([] : TagMap), kind := .absolute,
       value := .gauge (.finite 1) } : Metric).timestamp = some 7 ∧
    (∃ suffix ∈ metricSuffixes,
      ({ name := encode_namespace "apache" "cpu_load", timestamp := some 7,
         tags := some ([] : TagMap), kind := .absolute,
         value := .gauge (.finite 1) } : Metric).name =
        encode_namespace "apache" suffix) ∧
    (({ name := encode_namespace "apache" "cpu_load", timestamp := some 7,
        tags := some ([] : TagMap), kind := .absolute,
        value := .gauge (.finite 1) } : Metric).tags = some ([] : TagMap) ∨
      ∃ p ∈ fixedTagPairs,
        ({ name := encode_namespace "apache" "cpu_load", timestamp := some 7,
           tags := some ([] : TagMap), kind := .absolute,
           value := .gauge (.finite 1) } : Metric).tags =
          some (insertTag [] p.1 p.2)) :=
  emitted_metric_invariants "CPULoad" "1".toList "apache" 7 [] scoreboardStates
    (List.Perm.refl _)
    [{ name := encode_namespace "apache" "cpu_load", timestamp := some 7,
       tags := some ([] : TagMap), kind := .absolute,
       value := .gauge (.finite 1) }]
    (by
      rw [line_to_metrics_CPULoad]
      rfl)
    { name := encode_namespace "apache" "cpu_load", timestamp := some 7,
      tags := some ([] : TagMap), kind := .absolute,
      value := .gauge (.finite 1) }
    (List.mem_singleton.mpr rfl)

end ApacheMetrics
